import Mathlib

/-!
Verification development for the snapshot-diff engine of the `recogne`
repository (the entity/graph data model in
`src/recogne/api/rcon/info/models.py` and the sentinel/link types in
`src/recogne/api/rcon/info/types.py`).

The Python code is shallowly embedded: pure fragments become Lean
functions, the scalar value universe (strings, ints, the Python null
`None` and the `Unset` sentinel) becomes the inductive `EValue`, fallible
code returns `Except String`, and the per-poll snapshot tree becomes
explicit record values.  Each embedded definition carries a comment
naming the source lines it was translated from.
-/

/-- Scalar field universe: the `Unset` sentinel (`types.py`, `UnsetType`),
the Python null `None`, integers and strings.  These are the only value
shapes that flow through the scalar fields the verified operations read
(`steamid`, `id`, `name`, `role`, `level`, `score`, `map`, `state`). -/
inductive EValue where
  | unset
  | pynone
  | int (n : Int)
  | str (s : String)
deriving DecidableEq, Repr

/-- Python `==` on the scalar universe: `Unset == Unset` and `None == None`
hold by identity, ints and strings compare structurally, and comparisons
across these types are `False`.  On this universe it coincides with
structural equality. -/
def pyEqB (a b : EValue) : Bool := a = b

/-- Python truthiness of a scalar: `Unset` is falsy (`UnsetType.__bool__`),
`None` is falsy, `0` and the empty string are falsy. -/
def truthyE : EValue → Bool
  | .unset => false
  | .pynone => false
  | .int n => n ≠ 0
  | .str s => s ≠ ""

/-- Resolution of `ModelTree.get(name)` on a scalar field: an `Unset` raw value makes the
resolved attribute lookup raise `AttributeError`, which `get` catches and
replaces with the default `None` (`models.py` lines 266-290, 384-403). -/
def getE : EValue → EValue
  | .unset => .pynone
  | v => v

theorem pyEqB_refl (a : EValue) : pyEqB a a = true := by
  simp [pyEqB]

/-! ## Freeze / unfreeze (`ModelTree.is_mutable` / `ModelTree.set_mutable`)

`models.py` lines 71-99.  The mutability state of a tree consists of the
root aggregate flag `__solid__` and, for every model reachable through
`root.flatten()`, the pydantic class config flag `allow_mutation` (the
root itself is not yielded by `flatten`, so its own config flag is kept
separately).  A freshly constructed `InfoHopper` has `allow_mutation =
True` on every class config and `__solid__ = not allow_mutation = False`
(`models.py` line 1085). -/

structure FreezeState where
  solid : Bool
  rootAllow : Bool
  childAllow : List Bool
deriving DecidableEq, Repr

/-- Embedding of `ModelTree.set_mutable(_bool, force)` (`models.py` lines 81-99):

    root = self.root
    _bool = bool(_bool)
    if root.__solid__ != _bool or force:
        for model in root.flatten():
            model.__config__.allow_mutation = False
        root.__solid__ = _bool

The guard compares `__solid__` (the frozen flag) against `_bool` (the
requested mutability), and the cascade unconditionally clears
`allow_mutation` on every flattened model. -/
def FreezeState.set_mutable (st : FreezeState) (b : Bool) (force : Bool) : FreezeState :=
  if st.solid != b || force then
    { st with solid := b, childAllow := st.childAllow.map fun _ => false }
  else st

/-- Embedding of `ModelTree.is_mutable` for the model at flatten-index `i`
(`models.py` lines 71-79): `not self.root.__solid__ and
self.__config__.allow_mutation`. -/
def FreezeState.is_mutableChild (st : FreezeState) (i : Nat) : Bool :=
  !st.solid && st.childAllow.getD i true

/-- Embedding of `ModelTree.is_mutable` evaluated on the root aggregate itself. -/
def FreezeState.is_mutableRoot (st : FreezeState) : Bool :=
  !st.solid && st.rootAllow

/-- Mutability state of a freshly constructed `InfoHopper` with `n`
flattened child models: `allow_mutation = True` everywhere (the pydantic
default; `ModelTree.Config` only sets `arbitrary_types_allowed`) and
`__solid__ = not allow_mutation = False` (`models.py` line 1085). -/
def freshFreeze (n : Nat) : FreezeState :=
  { solid := false, rootAllow := true, childAllow := List.replicate n true }

/-- C1: Freeze/unfreeze round-trip.  The claim states that after
`root.set_mutable(False)` every node yielded by `root.flatten()` rejects
mutation.  On the code this fails: for a fresh mutable root the guard
`if root.__solid__ != _bool or force` evaluates `False != False`, so
`set_mutable(False)` changes nothing and the child still reports
`is_mutable() == True`, contradicting the method docstring ("Change this
mutability of this model, including all of its children") — a code bug.  The
theorem evaluates the embedded code at the failing input: a fresh root
with one flattened child, after `set_mutable(False)`, is unchanged and
its child still accepts mutation. -/
theorem c1_set_mutable_freeze_is_noop :
    (freshFreeze 1).set_mutable false false = freshFreeze 1 ∧
    ((freshFreeze 1).set_mutable false false).is_mutableChild 0 = true := by
  decide

/-- Companion fact (not a claim theorem): the direction the docstring
calls unfreezing, `set_mutable(True)` on a mutable tree, does pass the
guard and then freezes everything: it clears every child config flag and
sets `__solid__ = True`, after which no child can ever be made mutable
again because the cascade only ever writes `False`. -/
theorem set_mutable_true_freezes :
    ((freshFreeze 1).set_mutable true false).solid = true ∧
    ((freshFreeze 1).set_mutable true false).is_mutableChild 0 = false := by
  decide

/-! ## Merge engine (`ModelTree.merge`, `models.py` lines 114-179)

The merge embedding works on a generic node model: a node is a concrete
entity type tag plus an association list from field names to stored (raw)
values.  A raw value is `Unset`, a scalar, a raw `Link`, a nested node, or
an `InfoModelArray` of nodes.  As in the source, the field list of a node
stands for the class-determined `__fields__` mapping (a field may appear
as an explicit `(name, unset)` entry or be missing, which merge treats
identically).  Mutability is the uniform flag `not root.__solid__` shared
by both sides of every nested merge (all class configs left at their
default `True`), passed as the `mutb` argument. -/

/-- Concrete entity types appearing in the embedding, with the one
proper-subclass edge relevant to the `isinstance` guard of merge:
`PlayerTeamkillEvent(PlayerKillEvent)` (`models.py` line 908). -/
inductive MType where
  | player | squad | team | server | hopper
  | playerKillEvent | playerTeamkillEvent
deriving DecidableEq, Repr

/-- Python `isinstance(x, C)` for an object of concrete class `sub`
against class `sup`: same class, or `sub` a declared subclass of `sup`. -/
def isInstanceOf (sub sup : MType) : Bool :=
  sub = sup || (sub = .playerTeamkillEvent && sup = .playerKillEvent)

/-- The `__key_fields__` tuple per concrete class (`models.py` lines 562, 660, 691,
723; event models declare `__key_fields__ = ()`). -/
def keyFieldsOf : MType → List String
  | .player => ["steamid", "id", "name"]
  | .squad => ["id", "name", "team"]
  | .team => ["id", "name"]
  | .server => ["name"]
  | _ => []

mutual
/-- A raw (unresolved) stored field value, as returned by
`ModelTree.get(attr, raw=True)`. -/
inductive MVal where
  | unset
  | scalar (v : EValue)
  | mlink (path : String) (vals : List (String × EValue))
  | node (n : MNode)
  | arr (xs : List MNode)
/-- A `ModelTree` node: concrete class tag plus raw field values. -/
inductive MNode where
  | mk (ty : MType) (fields : List (String × MVal))
end

def MNode.ty : MNode → MType
  | .mk t _ => t

def MNode.fields : MNode → List (String × MVal)
  | .mk _ f => f

/-- First-occurrence association lookup; a missing field reads as `Unset`
(the pydantic default installed by `UnsetField`). -/
def lookupF : List (String × MVal) → String → MVal
  | [], _ => .unset
  | (k, v) :: rest, a => if k = a then v else lookupF rest a

/-- Embedding of `self.get(attr, raw=True)` (`models.py` lines 266-290). -/
def MNode.getRaw (n : MNode) (a : String) : MVal := lookupF n.fields a

/-- Replace the first binding of a field (or append if the field had no
entry): value-level counterpart of `setattr(self, attr, value)`.
`validate_assignment` is off, so pydantic stores the value as given. -/
def setAssoc : List (String × MVal) → String → MVal → List (String × MVal)
  | [], a, v => [(a, v)]
  | (k, w) :: rest, a, v => if k = a then (k, v) :: rest else (k, w) :: setAssoc rest a v

def MNode.setF (n : MNode) (a : String) (v : MVal) : MNode :=
  .mk n.ty (setAssoc n.fields a v)

/-- The filter value contributed by one key field of a collection item in
merge (`models.py` lines 167-171):
`{attr: other_iter.get(attr) for attr in other_iter.__key_fields__ if other_iter.get(attr)}`
uses the resolved accessor (an `Unset` raw value resolves to the default
`None`) and keeps only truthy values.  In this embedding the key fields of
collection members hold scalars; link- or node-valued key fields (which
the source would resolve against the other snapshot tree) are outside the
modelled universe and drop out of the filter. -/
def mergeKeyVal : MVal → Option EValue
  | .scalar v => if truthyE (getE v) then some (getE v) else none
  | _ => none

/-- The key filters extracted from a collection item by merge. -/
def mergeKeyAttrs (item : MNode) : List (String × EValue) :=
  (keyFieldsOf item.ty).filterMap fun k => (mergeKeyVal (item.getRaw k)).map fun v => (k, v)

/-- Raw-value equality against a scalar filter value, as evaluated by
`InfoModel.matches` (`models.py` lines 494-499): a scalar raw value uses
Python `==`; a raw `Link`, node or array never equals a scalar. -/
def rawEqScalar : MVal → EValue → Bool
  | .scalar w, v => pyEqB w v
  | _, _ => false

/-- Embedding of `InfoModel.matches(ignore_unknown=True, **filters)` for the filters
built by merge: filter keys whose raw value on the candidate is `Unset`
are skipped (this also silently swallows the stray `single=True` keyword
that `ModelTree.merge` passes into `**filters` at `models.py` line 172-174:
no model declares a `single` field, so its raw lookup is `Unset`). -/
def memberMatches (q : MNode) (attrs : List (String × EValue)) : Bool :=
  attrs.all fun kv =>
    match q.getRaw kv.1 with
    | .unset => true
    | w => rawEqScalar w kv.2

/-- One step of the collection reconciliation loop (`models.py` lines
164-179): look up the first member of the current self-collection that
matches the item of the other collection on its truthy key fields; merge
into it in place if found; drop the item silently otherwise.  `recur` is
the member-level merge. -/
def mergeArrStep (recur : MNode → MNode → Except String MNode)
    (cur : List MNode) (bitem : MNode) : Except String (List MNode) :=
  match cur.findIdx? (fun q => memberMatches q (mergeKeyAttrs bitem)) with
  | none => .ok cur
  | some i =>
    match cur.get? i with
    | none => .ok cur
    | some selfIter => (recur selfIter bitem).map fun m => cur.set i m

/-- One step of the field loop of `ModelTree.merge` (`models.py` lines
141-179), for field `p.1` carrying the raw value `p.2` of the other model:

* other `Unset` → skip;
* self `Unset` → copy the other raw value into self;
* both nodes with `isinstance(other_val, self_val.__class__)` →
  recursive in-place merge, else silently skip;
* both `InfoModelArray` → member reconciliation;
* anything else (scalar/scalar, link-valued self, mismatched shapes) →
  silently skip. -/
def mergeField (recur : MNode → MNode → Except String MNode)
    (acc : MNode) (attr : String) (bv : MVal) : Except String MNode :=
  match acc.getRaw attr, bv with
  | _, .unset => .ok acc
  | .unset, bv2 => .ok (acc.setF attr bv2)
  | .node an, .node bn =>
    if isInstanceOf bn.ty an.ty then
      (recur an bn).map fun m => acc.setF attr (.node m)
    else .ok acc
  | .node _, _ => .ok acc
  | .arr axs, .arr bxs =>
    (bxs.foldlM (mergeArrStep recur) axs).map fun r2 => acc.setF attr (.arr r2)
  | _, _ => .ok acc

/-- The field loop body, uncurried for folding over `other.__fields__`. -/
def mergeStep (recur : MNode → MNode → Except String MNode)
    (acc : MNode) (p : String × MVal) : Except String MNode :=
  mergeField recur acc p.1 p.2

/-- Embedding of `ModelTree.merge(other)` (`models.py` lines 114-179) with explicit
recursion fuel; the two guards precede everything:

    if not isinstance(other, self.__class__): raise TypeError(...)
    if not self.is_mutable(): raise TypeError(...)

then the loop over `other.__fields__`.  The fuel only bounds nesting
depth; the public wrapper `mergeNode` supplies `sizeOf b`, which exceeds
the nesting depth of `b`, so the fuel branch is unreachable from the
wrapper. -/
def mergeCore (mutb : Bool) : Nat → MNode → MNode → Except String MNode
  | 0, a, b =>
    if isInstanceOf b.ty a.ty = false then
      .error "Info classes are not of same type"
    else if mutb = false then
      .error "Model must be mutable to merge another into it"
    else .error "recursion limit reached"
  | Nat.succ f, a, b =>
    if isInstanceOf b.ty a.ty = false then
      .error "Info classes are not of same type"
    else if mutb = false then
      .error "Model must be mutable to merge another into it"
    else b.fields.foldlM (mergeStep (fun an bn => mergeCore mutb f an bn)) a

mutual
/-- Structural size of a raw value, used only to supply sufficient merge
fuel. -/
def MVal.msize : MVal → Nat
  | .unset => 1
  | .scalar _ => 1
  | .mlink _ _ => 1
  | .node n => 1 + n.msize
  | .arr xs => 1 + msizeArr xs
def MNode.msize : MNode → Nat
  | .mk _ fs => 1 + msizeFields fs
def msizeFields : List (String × MVal) → Nat
  | [] => 0
  | p :: rest => 1 + p.2.msize + msizeFields rest
def msizeArr : List MNode → Nat
  | [] => 0
  | n :: rest => 1 + n.msize + msizeArr rest
end

/-- Public entry `self.merge(other)` with `self = a`, `other = b`; `mutb` is
`a.is_mutable()`. -/
def mergeNode (mutb : Bool) (a b : MNode) : Except String MNode :=
  mergeCore mutb b.msize a b


/-! ### Merge lemmas -/

theorem mergeStep_eq (recur : MNode → MNode → Except String MNode)
    (acc : MNode) (g : String) (bv : MVal) :
    mergeStep recur acc (g, bv) = mergeField recur acc g bv := rfl

theorem lookupF_setAssoc (l : List (String × MVal)) (g f : String) (v : MVal) :
    lookupF (setAssoc l g v) f = if f = g then v else lookupF l f := by
  induction l with
  | nil =>
    simp only [setAssoc, lookupF]
    by_cases h : f = g
    · subst h
      simp
    · rw [if_neg (Ne.symm h), if_neg h]
  | cons p rest ih =>
    obtain ⟨k, w⟩ := p
    simp only [setAssoc]
    by_cases hk : k = g
    · subst hk
      rw [if_pos rfl]
      simp only [lookupF]
      by_cases hf : f = k
      · subst hf
        simp
      · rw [if_neg (Ne.symm hf), if_neg hf, if_neg (Ne.symm hf)]
    · rw [if_neg hk]
      simp only [lookupF]
      by_cases hkf : k = f
      · rw [if_pos hkf, if_neg (fun h2 => hk (hkf.trans h2)), if_pos hkf]
      · rw [if_neg hkf, ih, if_neg hkf]

theorem getRaw_setF (n : MNode) (g f : String) (v : MVal) :
    (n.setF g v).getRaw f = if f = g then v else n.getRaw f := by
  cases n
  simp [MNode.setF, MNode.getRaw, MNode.fields, lookupF_setAssoc]

theorem except_bind_ok_iff {α β : Type} (x : Except String α) (g : α → Except String β)
    (r : β) : (x >>= g) = .ok r ↔ ∃ a, x = .ok a ∧ g a = .ok r := by
  cases x with
  | ok a =>
    constructor
    · intro h
      exact ⟨a, rfl, h⟩
    · rintro ⟨a2, ha, hg⟩
      cases ha
      exact hg
  | error e =>
    constructor
    · intro h
      exact absurd h (by simp [Bind.bind, Except.bind])
    · rintro ⟨a2, ha, h2⟩
      cases ha

theorem except_map_ok_iff {α β : Type} (x : Except String α) (g : α → β) (r : β) :
    x.map g = .ok r ↔ ∃ a, x = .ok a ∧ g a = r := by
  cases x with
  | ok a => simp [Except.map]
  | error e => simp [Except.map]

/-- Invariant preservation through a fallible left fold. -/
theorem foldlM_except_inv {α β : Type} (P : β → Prop) (step : β → α → Except String β)
    (hstep : ∀ s a s2, P s → step s a = .ok s2 → P s2) :
    ∀ (l : List α) (s0 sf : β), P s0 → List.foldlM step s0 l = .ok sf → P sf := by
  intro l
  induction l with
  | nil =>
    intro s0 sf h0 hf
    simp only [List.foldlM] at hf
    rw [show (pure s0 : Except String β) = Except.ok s0 from rfl] at hf
    injection hf with h2
    exact h2 ▸ h0
  | cons a rest ih =>
    intro s0 sf h0 hf
    rw [show List.foldlM step s0 (a :: rest) = step s0 a >>= fun s => List.foldlM step s rest
      from by simp [List.foldlM]] at hf
    rw [except_bind_ok_iff] at hf
    obtain ⟨s1, h1, h2⟩ := hf
    exact ih s1 sf (hstep s0 a s1 h0 h1) h2

/-- Any successful `mergeField` either leaves the accumulator unchanged or
rewrites exactly the processed field. -/
theorem mergeField_shape (recur : MNode → MNode → Except String MNode)
    (acc : MNode) (attr : String) (bv : MVal) (acc2 : MNode)
    (h : mergeField recur acc attr bv = .ok acc2) :
    acc2 = acc ∨ ∃ v, acc2 = acc.setF attr v := by
  unfold mergeField at h
  split at h
  · exact Or.inl (Except.ok.inj h).symm
  · exact Or.inr ⟨_, (Except.ok.inj h).symm⟩
  · split at h
    · rw [except_map_ok_iff] at h
      obtain ⟨m, hm1, hm2⟩ := h
      exact Or.inr ⟨_, hm2.symm⟩
    · exact Or.inl (Except.ok.inj h).symm
  · exact Or.inl (Except.ok.inj h).symm
  · rw [except_map_ok_iff] at h
    obtain ⟨m, hm1, hm2⟩ := h
    exact Or.inr ⟨_, hm2.symm⟩
  · exact Or.inl (Except.ok.inj h).symm

/-- A successful `mergeField` never changes a field whose raw value on the
accumulator is a concrete scalar (the fill-only property at one field). -/
theorem mergeField_scalar_keep (recur : MNode → MNode → Except String MNode)
    (acc : MNode) (attr : String) (bv : MVal) (acc2 : MNode) (f : String) (v : EValue)
    (hf : acc.getRaw f = .scalar v) (h : mergeField recur acc attr bv = .ok acc2) :
    acc2.getRaw f = .scalar v := by
  by_cases hg : attr = f
  · subst hg
    unfold mergeField at h
    rw [hf] at h
    split at h <;>
      first
        | (rw [← Except.ok.inj h]; exact hf)
        | (exfalso; simp_all)
  · rcases mergeField_shape recur acc attr bv acc2 h with h1 | ⟨w, h1⟩
    · rw [h1]
      exact hf
    · rw [h1, getRaw_setF, if_neg (Ne.symm hg)]
      exact hf

/-- One reconciliation step never changes the length of the collection
(`models.py` lines 164-179: items either merge into an existing member in
place or are silently dropped). -/
theorem mergeArrStep_length (recur : MNode → MNode → Except String MNode)
    (cur : List MNode) (bitem : MNode) (cur2 : List MNode)
    (h : mergeArrStep recur cur bitem = .ok cur2) : cur2.length = cur.length := by
  unfold mergeArrStep at h
  split at h
  · rw [← Except.ok.inj h]
  · split at h
    · rw [← Except.ok.inj h]
    · rw [except_map_ok_iff] at h
      obtain ⟨m, hm1, hm2⟩ := h
      rw [← hm2]
      exact List.length_set ..

/-- A successful `mergeField` preserves the length of any collection-valued
field of the accumulator. -/
theorem mergeField_arr_len (recur : MNode → MNode → Except String MNode)
    (acc : MNode) (attr : String) (bv : MVal) (acc2 : MNode) (f : String)
    (xs : List MNode)
    (hf : acc.getRaw f = .arr xs) (h : mergeField recur acc attr bv = .ok acc2) :
    ∃ ys, acc2.getRaw f = .arr ys ∧ ys.length = xs.length := by
  by_cases hg : attr = f
  · subst hg
    cases bv with
    | unset =>
      have he : mergeField recur acc attr .unset = .ok acc := by
        unfold mergeField
        rw [hf]
      rw [he] at h
      exact ⟨xs, (Except.ok.inj h) ▸ hf, rfl⟩
    | scalar v2 =>
      have he : mergeField recur acc attr (.scalar v2) = .ok acc := by
        unfold mergeField
        rw [hf]
      rw [he] at h
      exact ⟨xs, (Except.ok.inj h) ▸ hf, rfl⟩
    | mlink pa va =>
      have he : mergeField recur acc attr (.mlink pa va) = .ok acc := by
        unfold mergeField
        rw [hf]
      rw [he] at h
      exact ⟨xs, (Except.ok.inj h) ▸ hf, rfl⟩
    | node bn =>
      have he : mergeField recur acc attr (.node bn) = .ok acc := by
        unfold mergeField
        rw [hf]
      rw [he] at h
      exact ⟨xs, (Except.ok.inj h) ▸ hf, rfl⟩
    | arr bxs =>
      have he : mergeField recur acc attr (.arr bxs) =
          (List.foldlM (mergeArrStep recur) xs bxs).map fun r2 => acc.setF attr (.arr r2) := by
        unfold mergeField
        rw [hf]
      rw [he, except_map_ok_iff] at h
      obtain ⟨r2, hfold, hset⟩ := h
      have hlen : r2.length = xs.length :=
        foldlM_except_inv (fun cur => cur.length = xs.length) (mergeArrStep recur)
          (fun s a s2 hP hs => (mergeArrStep_length recur s a s2 hs).trans hP)
          bxs xs r2 rfl hfold
      refine ⟨r2, ?_, hlen⟩
      rw [← hset, getRaw_setF, if_pos rfl]
  · rcases mergeField_shape recur acc attr bv acc2 h with h1 | ⟨w, h1⟩
    · exact ⟨xs, h1 ▸ hf, rfl⟩
    · refine ⟨xs, ?_, rfl⟩
      rw [h1, getRaw_setF, if_neg (Ne.symm hg)]
      exact hf

/-- Scalar-keep, lifted through the field loop. -/
theorem mergeFields_keep (recur : MNode → MNode → Except String MNode)
    (f : String) (v : EValue) (bfs : List (String × MVal)) (acc r : MNode)
    (hf : acc.getRaw f = .scalar v)
    (h : List.foldlM (mergeStep recur) acc bfs = .ok r) :
    r.getRaw f = .scalar v :=
  foldlM_except_inv (fun n => n.getRaw f = .scalar v) (mergeStep recur)
    (fun s p s2 hP hs =>
      mergeField_scalar_keep recur s p.1 p.2 s2 f v hP hs)
    bfs acc r hf h

/-- Fill-on-unset, lifted through the field loop: if the accumulator is
`Unset` at `f` and the other fields carry a concrete scalar for `f`, the
loop installs exactly that scalar. -/
theorem mergeFields_fill (recur : MNode → MNode → Except String MNode)
    (f : String) (w : EValue) :
    ∀ (bfs : List (String × MVal)) (acc r : MNode),
      acc.getRaw f = .unset → lookupF bfs f = .scalar w →
      List.foldlM (mergeStep recur) acc bfs = .ok r → r.getRaw f = .scalar w := by
  intro bfs
  induction bfs with
  | nil =>
    intro acc r h0 hl hfold
    exact absurd hl (by simp [lookupF])
  | cons p rest ih =>
    intro acc r h0 hl hfold
    obtain ⟨g, bv⟩ := p
    rw [show List.foldlM (mergeStep recur) acc ((g, bv) :: rest)
        = mergeStep recur acc (g, bv) >>= fun s => List.foldlM (mergeStep recur) s rest
      from by simp [List.foldlM]] at hfold
    rw [except_bind_ok_iff] at hfold
    obtain ⟨acc1, h1, h2⟩ := hfold
    rw [mergeStep_eq] at h1
    by_cases hg : g = f
    · subst hg
      have hbv : bv = .scalar w := by
        simpa [lookupF] using hl
      subst hbv
      have hacc1 : acc1 = acc.setF g (.scalar w) := by
        unfold mergeField at h1
        rw [h0] at h1
        exact (Except.ok.inj h1).symm
      have : acc1.getRaw g = .scalar w := by
        rw [hacc1, getRaw_setF, if_pos rfl]
      exact mergeFields_keep recur g w rest acc1 r this h2
    · have hrest : lookupF rest f = .scalar w := by
        simpa [lookupF, hg] using hl
      have hacc1 : acc1.getRaw f = .unset := by
        rcases mergeField_shape recur acc g bv acc1 h1 with he | ⟨v2, he⟩
        · rw [he]
          exact h0
        · rw [he, getRaw_setF, if_neg (Ne.symm hg)]
          exact h0
      exact ih acc1 r hacc1 hrest h2

/-- A successful merge is, past its two guards, exactly the field loop at
some fuel level. -/
theorem mergeCore_ok_fold (mutb : Bool) (fuel : Nat) (a b r : MNode)
    (h : mergeCore mutb fuel a b = .ok r) :
    ∃ fl, List.foldlM (mergeStep (fun an bn => mergeCore mutb fl an bn)) a b.fields
      = .ok r := by
  cases fuel with
  | zero =>
    unfold mergeCore at h
    split at h
    · exact absurd h (by simp)
    · split at h <;> exact absurd h (by simp)
  | succ fl =>
    unfold mergeCore at h
    split at h
    · exact absurd h (by simp)
    · split at h
      · exact absurd h (by simp)
      · exact ⟨fl, h⟩

/-- The two merge guards (`models.py` lines 133-139) fire before any field
is touched, at any fuel level. -/
theorem mergeCore_guard_error (mutb : Bool) (fuel : Nat) (a b : MNode)
    (h : isInstanceOf b.ty a.ty = false ∨ mutb = false) :
    ∃ e, mergeCore mutb fuel a b = .error e := by
  cases fuel with
  | zero =>
    rcases h with h | h
    · exact ⟨_, by unfold mergeCore; rw [if_pos h]⟩
    · by_cases h1 : isInstanceOf b.ty a.ty = false
      · exact ⟨_, by unfold mergeCore; rw [if_pos h1]⟩
      · exact ⟨_, by unfold mergeCore; rw [if_neg h1, if_pos h]⟩
  | succ fl =>
    rcases h with h | h
    · exact ⟨_, by unfold mergeCore; rw [if_pos h]⟩
    · by_cases h1 : isInstanceOf b.ty a.ty = false
      · exact ⟨_, by unfold mergeCore; rw [if_pos h1]⟩
      · exact ⟨_, by unfold mergeCore; rw [if_neg h1, if_pos h]⟩

/-! ### Merge claims -/

/-- C5 counterexample: the claim says `a.merge(b)` fails whenever `b` is
not of exactly the same concrete entity type as `a`.  The guard in the
source is `isinstance(other, self.__class__)` (`models.py` line 133), so
merging a `PlayerTeamkillEvent` into a mutable `PlayerKillEvent` — two
different concrete entity types, one a subclass of the other — raises no
error and succeeds. -/
theorem c5_merge_subclass_counterexample :
    mergeNode true (MNode.mk .playerKillEvent []) (MNode.mk .playerTeamkillEvent [])
      = .ok (MNode.mk .playerKillEvent []) ∧
    (MNode.mk .playerTeamkillEvent [] : MNode).ty ≠ (MNode.mk .playerKillEvent [] : MNode).ty :=
  ⟨rfl, by decide⟩

/-- C5 (amended): `a.merge(b)` raises whenever `b` is not an instance of
the concrete class of `a` (same class or one of its subclasses), or `a`
is not mutable; both guards run before any field is read or written
(`models.py` lines 133-139), so on such a failure `a` is left unchanged
(the embedding returns the error without producing any updated node). -/
theorem c5_merge_guard_amended (mutb : Bool) (a b : MNode)
    (h : isInstanceOf b.ty a.ty = false ∨ mutb = false) :
    ∃ e, mergeNode mutb a b = .error e :=
  mergeCore_guard_error mutb b.msize a b h

/-- C5 witness: merging a `Squad` node into a mutable `Player` node hits
the type guard. -/
theorem c5_merge_guard_witness :
    ∃ e, mergeNode true (MNode.mk .player []) (MNode.mk .squad []) = .error e :=
  c5_merge_guard_amended true (MNode.mk .player []) (MNode.mk .squad [])
    (Or.inl (by decide))

/-- C6: merge is fill-only for scalar fields (`models.py` lines 141-159).
For a successful `a.merge(b)` with result `r`: a field whose raw value on
`a` is a concrete scalar is unchanged in `r`; a field whose raw value on
`a` is `Unset` and whose raw value on `b` is a concrete scalar ends up
equal to the value from `b`. -/
theorem c6_merge_fill_only_scalars (mutb : Bool) (a b r : MNode) (f : String)
    (hok : mergeNode mutb a b = .ok r) :
    (∀ v, a.getRaw f = .scalar v → r.getRaw f = .scalar v) ∧
    (∀ w, a.getRaw f = .unset → b.getRaw f = .scalar w → r.getRaw f = .scalar w) := by
  obtain ⟨fl, hfold⟩ := mergeCore_ok_fold mutb b.msize a b r hok
  constructor
  · intro v hv
    exact mergeFields_keep _ f v b.fields a r hv hfold
  · intro w h0 hb
    exact mergeFields_fill _ f w b.fields a r h0 hb hfold

def c6a : MNode := .mk .player [("name", .scalar (.str "X")), ("role", .unset)]
def c6b : MNode :=
  .mk .player [("name", .scalar (.str "Y")), ("role", .scalar (.str "officer"))]
def c6r : MNode :=
  .mk .player [("name", .scalar (.str "X")), ("role", .scalar (.str "officer"))]

/-- C6 witness: a concrete merge where the set scalar `name` survives and
the unset scalar `role` is filled from the other node. -/
theorem c6_merge_fill_only_witness :
    c6r.getRaw "name" = .scalar (.str "X") ∧
    c6r.getRaw "role" = .scalar (.str "officer") :=
  ⟨(c6_merge_fill_only_scalars true c6a c6b c6r "name" rfl).1 (.str "X") rfl,
   (c6_merge_fill_only_scalars true c6a c6b c6r "role" rfl).2 (.str "officer") rfl rfl⟩

/-- C7: merge never inserts collection members (`models.py` lines
161-179).  For a successful `a.merge(b)` with result `r`, any field that
holds an `InfoModelArray` in `a` holds an array of exactly the same
length in `r`: items of the other collection either merge into an
existing matched member in place or are silently dropped, never
appended. -/
theorem c7_merge_never_grows_collections (mutb : Bool) (a b r : MNode) (f : String)
    (xs : List MNode)
    (hf : a.getRaw f = .arr xs) (hok : mergeNode mutb a b = .ok r) :
    ∃ ys, r.getRaw f = .arr ys ∧ ys.length = xs.length := by
  obtain ⟨fl, hfold⟩ := mergeCore_ok_fold mutb b.msize a b r hok
  exact foldlM_except_inv (fun n => ∃ ys, n.getRaw f = .arr ys ∧ ys.length = xs.length)
    (mergeStep _)
    (fun s p s2 hP hs => by
      obtain ⟨ys, hys, hlen⟩ := hP
      obtain ⟨zs, hzs, hzlen⟩ := mergeField_arr_len _ s p.1 p.2 s2 f ys hys hs
      exact ⟨zs, hzs, hzlen.trans hlen⟩)
    b.fields a r ⟨xs, hf, rfl⟩ hfold

def c7pA : MNode := .mk .player [("steamid", .scalar (.str "A"))]
def c7pB : MNode := .mk .player [("steamid", .scalar (.str "B"))]
def c7a : MNode := .mk .hopper [("players", .arr [c7pA])]
def c7b : MNode := .mk .hopper [("players", .arr [c7pB])]

/-- C7 witness: merging a snapshot carrying an unmatched player drops the
item; the players collection keeps length one. -/
theorem c7_merge_never_grows_witness :
    ∃ ys, c7a.getRaw "players" = .arr ys ∧ ys.length = 1 :=
  c7_merge_never_grows_collections true c7a c7b c7a "players" [c7pA] rfl rfl

/-! ## Snapshot model for `InfoHopper.compare_older` (`models.py` 1130-1274)

The diff engine reads a fixed set of fields from the two snapshots; the
embedding gives each entity a record with exactly those fields.  Scalar
fields are `EValue`; `level`, `score`, `joined_at` and `created_at` are
`Option Int` (`none` = `Unset`; a set timestamp/datetime is always truthy
in Python, and `level`/`score` are pydantic-validated ints).  A reference
field such as `Player.squad` is `Option (Option ref)`: the outer `none`
is `Unset`, `some none` is an explicit `None` (covering both a stored
`None` and a stored link that resolves to nothing), and `some (some s)`
is a reference that `player.get(..)` resolves to the entity with key data
`s`.  `createdI` is the implicit `__created_at__` construction timestamp
(`models.py` line 369). -/

structure PRef where
  steamid : EValue
  id : EValue
  name : EValue
deriving DecidableEq, Repr

structure SRef where
  id : EValue
  name : EValue
  team : EValue
deriving DecidableEq, Repr

structure TRef where
  id : EValue
  name : EValue
deriving DecidableEq, Repr

structure CPlayer where
  steamid : EValue
  id : EValue
  name : EValue
  role : EValue
  level : Option Int
  squad : Option (Option SRef)
  team : Option (Option TRef)
  joined_at : Option Int
  createdI : Int
deriving DecidableEq, Repr

structure CSquad where
  id : EValue
  name : EValue
  team : EValue
  leader : Option (Option PRef)
  created_at : Option Int
  createdI : Int
deriving DecidableEq, Repr

structure CTeam where
  id : EValue
  name : EValue
  score : Option Int
  created_at : Option Int
  createdI : Int
deriving DecidableEq, Repr

structure CServer where
  map : EValue
  state : EValue
deriving DecidableEq, Repr

/-- The root aggregate as read by `compare_older`: `players`, `squads`,
`teams` may be `Unset` (`none`), the singleton `server` always exists
(`InfoHopper.__init__`, `models.py` lines 1079-1085). -/
structure CSnap where
  players : Option (List CPlayer)
  squads : Option (List CSquad)
  teams : Option (List CTeam)
  server : CServer
deriving DecidableEq, Repr

/-! ### `create_link` (`models.py` lines 444-466) and event payloads

`create_link(with_fallback=True)` builds a `Link` whose `values` are the
key attributes with `exclude_unset=True, exclude_links=True` (key fields
are scalars in this embedding, so `exclude_links` is inert) and raises
`ValueError("No key fields have values assigned")` when that map is
empty.  The fallback is either a fresh node holding only those key
attributes (`hopper=None`) or a full copy via `self.copy(hopper.root)`
(`hopper` given). -/

inductive PFallback where
  | keyOnly
  | copyPlayer (p : CPlayer)
  | copyLeader (p : PRef)
deriving DecidableEq, Repr

structure LinkP where
  values : List (String × EValue)
  fallback : PFallback
deriving DecidableEq, Repr

/-- Link to a squad resolved from a player field; in `compare_older` such
links are always created with `hopper=self`, i.e. a full-copy fallback. -/
structure SquadLinkRef where
  values : List (String × EValue)
  fallback : SRef
deriving DecidableEq, Repr

inductive SquadFallback where
  | keyOnly
  | copyAll (s : CSquad)
deriving DecidableEq, Repr

structure SquadLinkFull where
  values : List (String × EValue)
  fallback : SquadFallback
deriving DecidableEq, Repr

/-- Link to a team; every team link in `compare_older` is created without
a `hopper` argument, so the fallback is a key-attributes-only node
determined by `values`. -/
structure LinkT where
  values : List (String × EValue)
deriving DecidableEq, Repr

/-- One emitted event, in `events.add` call order.  The local buffer
`events = Events(self)` segregates events by type; the trace records the
construction/add sequence, which is the order statement of the spec. -/
inductive CEvent where
  | playerChangeRole (player : LinkP) (old yng : EValue)
  | playerLevelUp (player : LinkP) (old yng : Int)
  | playerJoinServer (player : LinkP)
  | playerSwitchSquad (player : LinkP) (old yng : Option SquadLinkRef)
  | playerSwitchTeam (player : LinkP) (old yng : Option LinkT)
  | playerScoreUpdate (player : LinkP)
  | playerLeaveServer (player : LinkP)
  | squadLeaderChange (squad : SquadLinkFull) (old yng : Option LinkP)
  | squadCreated (squad : SquadLinkFull)
  | squadDisbanded (squad : SquadLinkFull)
  | objectiveCapture (team : LinkT) (score : String)
  | serverMapChanged (old yng : EValue)
deriving DecidableEq, Repr

def playerKeyAttrs (p : CPlayer) : List (String × EValue) :=
  ([("steamid", p.steamid), ("id", p.id), ("name", p.name)]).filter
    fun kv => kv.2 != EValue.unset

def prefKeyAttrs (p : PRef) : List (String × EValue) :=
  ([("steamid", p.steamid), ("id", p.id), ("name", p.name)]).filter
    fun kv => kv.2 != EValue.unset

def srefKeyAttrs (s : SRef) : List (String × EValue) :=
  ([("id", s.id), ("name", s.name), ("team", s.team)]).filter
    fun kv => kv.2 != EValue.unset

def csquadKeyAttrs (s : CSquad) : List (String × EValue) :=
  ([("id", s.id), ("name", s.name), ("team", s.team)]).filter
    fun kv => kv.2 != EValue.unset

def trefKeyAttrs (t : TRef) : List (String × EValue) :=
  ([("id", t.id), ("name", t.name)]).filter fun kv => kv.2 != EValue.unset

def cteamKeyAttrs (t : CTeam) : List (String × EValue) :=
  ([("id", t.id), ("name", t.name)]).filter fun kv => kv.2 != EValue.unset

def createLinkP (p : CPlayer) (fb : PFallback) : Except String LinkP :=
  let vals := playerKeyAttrs p
  if vals.isEmpty then .error "No key fields have values assigned"
  else .ok ⟨vals, fb⟩

def createLinkLeader (p : PRef) : Except String LinkP :=
  let vals := prefKeyAttrs p
  if vals.isEmpty then .error "No key fields have values assigned"
  else .ok ⟨vals, .copyLeader p⟩

def createLinkSRef (s : SRef) : Except String SquadLinkRef :=
  let vals := srefKeyAttrs s
  if vals.isEmpty then .error "No key fields have values assigned"
  else .ok ⟨vals, s⟩

def createLinkSquadFull (s : CSquad) (fb : SquadFallback) : Except String SquadLinkFull :=
  let vals := csquadKeyAttrs s
  if vals.isEmpty then .error "No key fields have values assigned"
  else .ok ⟨vals, fb⟩

def createLinkTRef (t : TRef) : Except String LinkT :=
  let vals := trefKeyAttrs t
  if vals.isEmpty then .error "No key fields have values assigned"
  else .ok ⟨vals⟩

def createLinkTeam (t : CTeam) : Except String LinkT :=
  let vals := cteamKeyAttrs t
  if vals.isEmpty then .error "No key fields have values assigned"
  else .ok ⟨vals⟩

/-! ### Matching, removal and resolved equality inside `compare_older` -/

/-- The filter map `player.get_key_attributes()` (`models.py` line 1144):
`exclude_unset` defaults to `False`, so all three key fields are passed,
`Unset` values included. -/
def playerFilters (p : CPlayer) : List (String × EValue) :=
  [("steamid", p.steamid), ("id", p.id), ("name", p.name)]

/-- Raw lookup of a player key field by name (unknown names read as
`Unset`, which is exactly how `matches(ignore_unknown=True)` skips
them). -/
def playerRawKey (q : CPlayer) : String → EValue
  | "steamid" => q.steamid
  | "id" => q.id
  | "name" => q.name
  | _ => .unset

/-- Embedding of `InfoModel.matches(ignore_unknown=True, **filters)` (`models.py`
lines 494-499): a filter key whose raw value on the candidate is `Unset`
is skipped; otherwise the candidate raw value must equal the filter
value (so a set candidate value never equals an `Unset` filter value). -/
def playerMatches (q : CPlayer) (filters : List (String × EValue)) : Bool :=
  filters.all fun kv =>
    match playerRawKey q kv.1 with
    | .unset => true
    | qv => pyEqB qv kv.2

/-- Embedding of `hash(player)`, which is `hash(self.get("steamid") or self.get("name"))`
(`models.py` lines 637-638); equal hashes are modelled as Python equality
of that resolved value. -/
def orNameVal (p : CPlayer) : EValue :=
  if truthyE (getE p.steamid) then getE p.steamid else getE p.name

/-- Embedding of `Player.__eq__` (`models.py` lines 640-644): hash comparison. -/
def hashEqP (a b : CPlayer) : Bool := pyEqB (orNameVal a) (orNameVal b)

/-- Embedding of `del others[others.index(match)]`: drop the first element equal (per
the relevant `__eq__`) to the matched one.  `match` is itself a member,
so the predicate always hits; an empty removal is unreachable. -/
def removeFirstBy {α : Type} (pred : α → Bool) : List α → List α
  | [] => []
  | x :: rest => if pred x then rest else x :: removeFirstBy pred rest

/-- One key-field slot of `InfoModel.__eq__` (`models.py` lines 413-431):
a slot is only compared when both sides carry a non-`Unset` value
(`get_key_attributes(exclude_unset=True)` on self, `k in d2` check on the
other side). -/
def keyPairOK (a b : EValue) : Bool :=
  (a == EValue.unset) || (b == EValue.unset) || pyEqB a b

/-- Embedding of `Squad.__eq__` on resolved squads: key fields `id`, `name`, `team`. -/
def srefEq (a b : SRef) : Bool :=
  keyPairOK a.id b.id && keyPairOK a.name b.name && keyPairOK a.team b.team

/-- Python `p_squad != m_squad` over resolved squads-or-`None`
(`models.py` line 1181): `None != None` is `False`; a squad never equals
`None`. -/
def optSquadNe : Option SRef → Option SRef → Bool
  | none, none => false
  | some x, some y => !(srefEq x y)
  | _, _ => true

/-- Embedding of `Team.__eq__` on resolved teams: key fields `id`, `name`. -/
def trefEq (a b : TRef) : Bool :=
  keyPairOK a.id b.id && keyPairOK a.name b.name

def optTeamNe : Option TRef → Option TRef → Bool
  | none, none => false
  | some x, some y => !(trefEq x y)
  | _, _ => true

/-- Embedding of `hash(player)` for a resolved leader reference. -/
def prefOrName (p : PRef) : EValue :=
  if truthyE (getE p.steamid) then getE p.steamid else getE p.name

/-- Embedding of `squad.leader != match.leader` over resolved leaders-or-`None`
(`models.py` line 1229), using `Player.__eq__` (hash comparison). -/
def leaderNe : Option PRef → Option PRef → Bool
  | none, none => false
  | some a, some b => !(pyEqB (prefOrName a) (prefOrName b))
  | _, _ => true

/-! ### Player phase (`models.py` lines 1141-1217) -/

/-- Role change event (`models.py` lines 1150-1152): both raw roles set
and resolved roles differ. -/
def roleEvents (p : CPlayer) : Option CPlayer → Except String (List CEvent)
  | some m =>
    if p.role ≠ .unset ∧ m.role ≠ .unset ∧ p.role ≠ m.role then do
      let lnk ← createLinkP p .keyOnly
      pure [CEvent.playerChangeRole lnk m.role p.role]
    else pure []
  | none => pure []

/-- Level up event (`models.py` lines 1162-1168): both levels known,
`player.level > match.level`, and not the late-loading artifact
`match.level == 1 and player.level - match.level > 1`. -/
def levelEvents (p : CPlayer) : Option CPlayer → Except String (List CEvent)
  | some m =>
    match p.level, m.level with
    | some a, some b =>
      if a > b ∧ ¬ (b = 1 ∧ a - b > 1) then do
        let lnk ← createLinkP p .keyOnly
        pure [CEvent.playerLevelUp lnk b a]
      else pure []
    | _, _ => pure []
  | none => pure []

/-- The `joined_at` backfill (`models.py` lines 1170-1174), evaluated before
the join and switch events; the value read from the match is the one
stored before this assignment. -/
def backfillJoinedAt (p : CPlayer) (mtch : Option CPlayer) : CPlayer :=
  if p.joined_at.isNone then
    { p with joined_at := some (match mtch with
        | some m => m.joined_at.getD p.createdI
        | none => p.createdI) }
  else p

/-- Join event for an unmatched newer player (`models.py` lines
1176-1177). -/
def joinEvents (p2 : CPlayer) : Option CPlayer → Except String (List CEvent)
  | some _ => pure []
  | none => do
    let lnk ← createLinkP p2 .keyOnly
    pure [CEvent.playerJoinServer lnk]

/-- Squad switch detection (`models.py` lines 1179-1186): compares the
resolved squads (an absent match counts as squad `None`); the player link
and both squad links carry full-copy fallbacks (`hopper=self`). -/
def squadSwitchEvents (p2 : CPlayer) (mtch : Option CPlayer) :
    Except String (List CEvent) :=
  let pSquad := p2.squad.join
  let mSquad := match mtch with
    | some m => m.squad.join
    | none => none
  if optSquadNe pSquad mSquad then do
    let plink ← createLinkP p2 (.copyPlayer p2)
    let old ← match mSquad with
      | some s => (createLinkSRef s).map some
      | none => pure none
    let yng ← match pSquad with
      | some s => (createLinkSRef s).map some
      | none => pure none
    pure [CEvent.playerSwitchSquad plink old yng]
  else pure []

/-- Team switch detection (`models.py` lines 1188-1195): like squads, but
the old/new team links are created without a `hopper` (key-only
fallback). -/
def teamSwitchEvents (p2 : CPlayer) (mtch : Option CPlayer) :
    Except String (List CEvent) :=
  let pTeam := p2.team.join
  let mTeam := match mtch with
    | some m => m.team.join
    | none => none
  if optTeamNe pTeam mTeam then do
    let plink ← createLinkP p2 (.copyPlayer p2)
    let old ← match mTeam with
      | some t => (createLinkTRef t).map some
      | none => pure none
    let yng ← match pTeam with
      | some t => (createLinkTRef t).map some
      | none => pure none
    pure [CEvent.playerSwitchTeam plink old yng]
  else pure []

/-- The loop body for one newer player (`models.py` lines 1143-1195):
find the first key-field match in the working copy, remove the first
`Player.__eq__`-equal entry if found, then emit role, level, join and
switch events in source order. -/
def playerStep (p : CPlayer) (others : List CPlayer) :
    Except String (List CEvent × List CPlayer) := do
  let mtch := others.find? fun q => playerMatches q (playerFilters p)
  let others2 := match mtch with
    | some m => removeFirstBy (fun q => hashEqP q m) others
    | none => others
  let evs1 ← roleEvents p mtch
  let evs2 ← levelEvents p mtch
  let p2 := backfillJoinedAt p mtch
  let evs3 ← joinEvents p2 mtch
  let evs4 ← squadSwitchEvents p2 mtch
  let evs5 ← teamSwitchEvents p2 mtch
  pure (evs1 ++ evs2 ++ evs3 ++ evs4 ++ evs5, others2)

/-- Leftover processing for one player present only in the older snapshot
(`models.py` lines 1197-1217).  `other.server.state` is a strict
attribute access: an `Unset` state raises `AttributeError`.  Then, in
order: a score update event when the older state is `"in_progress"`,
always a leave event, a squad switch to `None` when the player resolves a
squad, a team switch to `None` when the player resolves a team. -/
def leftoverStep (olderState : EValue) (q : CPlayer) : Except String (List CEvent) := do
  if olderState = .unset then
    throw "AttributeError: state"
  else
    let scoreEvs ← if olderState = .str "in_progress" then do
        let l ← createLinkP q (.copyPlayer q)
        pure [CEvent.playerScoreUpdate l]
      else pure ([] : List CEvent)
    let l2 ← createLinkP q (.copyPlayer q)
    let squadEvs ← match q.squad.join with
      | some s => do
        let pl ← createLinkP q (.copyPlayer q)
        let sl ← createLinkSRef s
        pure [CEvent.playerSwitchSquad pl (some sl) none]
      | none => pure ([] : List CEvent)
    let teamEvs ← match q.team.join with
      | some t => do
        let pl ← createLinkP q (.copyPlayer q)
        let tl ← createLinkTRef t
        pure [CEvent.playerSwitchTeam pl (some tl) none]
      | none => pure ([] : List CEvent)
    pure (scoreEvs ++ [CEvent.playerLeaveServer l2] ++ squadEvs ++ teamEvs)

/-- Whole player phase: fold the loop body over the newer players with
the working copy initialized to the older players, then process the
leftovers. -/
def playersFoldStep (st : List CEvent × List CPlayer) (p : CPlayer) :
    Except String (List CEvent × List CPlayer) := do
  let r ← playerStep p st.2
  pure (st.1 ++ r.1, r.2)

def leftoverFoldStep (olderState : EValue) (acc : List CEvent) (q : CPlayer) :
    Except String (List CEvent) := do
  let le ← leftoverStep olderState q
  pure (acc ++ le)

def playersPhase (ps others0 : List CPlayer) (olderState : EValue) :
    Except String (List CEvent) := do
  let st ← ps.foldlM playersFoldStep (([], others0) : List CEvent × List CPlayer)
  st.2.foldlM (leftoverFoldStep olderState) st.1

/-! ### Squad phase (`models.py` lines 1219-1244) -/

def squadFilters (sq : CSquad) : List (String × EValue) :=
  [("id", sq.id), ("name", sq.name), ("team", sq.team)]

def squadRawKey (q : CSquad) : String → EValue
  | "id" => q.id
  | "name" => q.name
  | "team" => q.team
  | _ => .unset

def squadMatches (q : CSquad) (filters : List (String × EValue)) : Bool :=
  filters.all fun kv =>
    match squadRawKey q kv.1 with
    | .unset => true
    | qv => pyEqB qv kv.2

/-- Embedding of `Squad.__eq__` used by `others.index(match)` for squads. -/
def csquadKeyEq (a b : CSquad) : Bool :=
  keyPairOK a.id b.id && keyPairOK a.name b.name && keyPairOK a.team b.team

/-- Squad leader change event (`models.py` lines 1228-1232): both raw
leaders set and the resolved leaders differ; `old`/`new` are leader links
with full-copy fallbacks, evaluated before the squad link (key-only
fallback). -/
def leaderChangeEvents (sq : CSquad) : Option CSquad → Except String (List CEvent)
  | some m =>
    match sq.leader, m.leader with
    | some pl, some ml =>
      if leaderNe pl ml then do
        let old ← match ml with
          | some x => (createLinkLeader x).map some
          | none => pure none
        let yng ← match pl with
          | some x => (createLinkLeader x).map some
          | none => pure none
        let sl ← createLinkSquadFull sq .keyOnly
        pure [CEvent.squadLeaderChange sl old yng]
      else pure []
    | _, _ => pure []
  | none => pure []

/-- The `created_at` backfill for squads (`models.py` lines 1234-1238); it
mutates the newer squad only and influences no emitted event (the squad
created link keeps only key attributes). -/
def backfillSquadCreatedAt (sq : CSquad) (mtch : Option CSquad) : CSquad :=
  if sq.created_at.isNone then
    { sq with created_at := some (match mtch with
        | some m => m.created_at.getD sq.createdI
        | none => sq.createdI) }
  else sq

/-- The loop body for one newer squad (`models.py` lines 1221-1241). -/
def squadStep (sq : CSquad) (others : List CSquad) :
    Except String (List CEvent × List CSquad) := do
  let mtch := others.find? fun q => squadMatches q (squadFilters sq)
  let others2 := match mtch with
    | some m => removeFirstBy (fun q => csquadKeyEq q m) others
    | none => others
  let evs1 ← leaderChangeEvents sq mtch
  let evs2 ← match mtch with
    | none => do
      let sl ← createLinkSquadFull (backfillSquadCreatedAt sq mtch) .keyOnly
      pure [CEvent.squadCreated sl]
    | some _ => pure ([] : List CEvent)
  pure (evs1 ++ evs2, others2)

/-- Whole squad phase, leftovers becoming squad disbanded events with
full-copy fallbacks (`models.py` lines 1243-1244). -/
def squadsFoldStep (st : List CEvent × List CSquad) (sq : CSquad) :
    Except String (List CEvent × List CSquad) := do
  let r ← squadStep sq st.2
  pure (st.1 ++ r.1, r.2)

def disbandFoldStep (acc : List CEvent) (q : CSquad) : Except String (List CEvent) := do
  let sl ← createLinkSquadFull q (.copyAll q)
  pure (acc ++ [CEvent.squadDisbanded sl])

def squadsPhase (ss others0 : List CSquad) : Except String (List CEvent) := do
  let st ← ss.foldlM squadsFoldStep (([], others0) : List CEvent × List CSquad)
  st.2.foldlM disbandFoldStep st.1

/-! ### Teams phase (`models.py` lines 1246-1267) -/

def teamFilters (t : CTeam) : List (String × EValue) :=
  [("id", t.id), ("name", t.name)]

def teamRawKey (q : CTeam) : String → EValue
  | "id" => q.id
  | "name" => q.name
  | _ => .unset

def teamMatches (q : CTeam) (filters : List (String × EValue)) : Bool :=
  filters.all fun kv =>
    match teamRawKey q kv.1 with
    | .unset => true
    | qv => pyEqB qv kv.2

/-- Embedding of `Team.__eq__` used by `others.index(match)` for teams. -/
def cteamKeyEq (a b : CTeam) : Bool :=
  keyPairOK a.id b.id && keyPairOK a.name b.name

/-- The objective capture check (`models.py` lines 1253-1261).  It sits
outside the `if match:` block, so with a known `team.score` and no match,
`match.has("score")` dereferences `None` and raises.  The warmup guard
reads `self.server.get("state")` — the NEWER snapshot state (an unset
state resolves to `None`, which differs from `"warmup"`).  The message
encodes the score against the fixed objective scale `5`, oriented by
`team.id == 1`. -/
def captureEvents (selfState : EValue) (t : CTeam) (mtch : Option CTeam) :
    Except String (List CEvent) :=
  match t.score with
  | none => pure []
  | some a =>
    match mtch with
    | none => throw "AttributeError: NoneType object has no attribute has"
    | some m =>
      match m.score with
      | none => pure []
      | some b =>
        if getE selfState ≠ .str "warmup" then
          if a > b then do
            let tl ← createLinkTeam t
            let msg := if t.id = .int 1 then s!"{a} - {5 - a}" else s!"{5 - a} - {a}"
            pure [CEvent.objectiveCapture tl msg]
          else pure []
        else pure []

/-- The loop body for one newer team (`models.py` lines 1248-1267); the
trailing `created_at` backfill (lines 1263-1267) mutates the newer team
only and emits nothing, so it does not appear in the trace. -/
def teamStep (selfState : EValue) (t : CTeam) (others : List CTeam) :
    Except String (List CEvent × List CTeam) := do
  let mtch := others.find? fun q => teamMatches q (teamFilters t)
  let others2 := match mtch with
    | some m => removeFirstBy (fun q => cteamKeyEq q m) others
    | none => others
  let evs ← captureEvents selfState t mtch
  pure (evs, others2)

def teamsFoldStep (selfState : EValue) (st : List CEvent × List CTeam) (t : CTeam) :
    Except String (List CEvent × List CTeam) := do
  let r ← teamStep selfState t st.2
  pure (st.1 ++ r.1, r.2)

def teamsPhase (selfState : EValue) (ts others0 : List CTeam) :
    Except String (List CEvent) := do
  let st ← ts.foldlM (teamsFoldStep selfState) (([], others0) : List CEvent × List CTeam)
  pure st.1

/-- Server map change (`models.py` lines 1269-1272): both maps resolved
through `get` (unset → `None`), both truthy, and different. -/
def mapPhase (selfMap otherMap : EValue) : List CEvent :=
  if truthyE (getE selfMap) && truthyE (getE otherMap)
      && !(pyEqB (getE selfMap) (getE otherMap)) then
    [CEvent.serverMapChanged (getE otherMap) (getE selfMap)]
  else []

/-- Embedding of `InfoHopper.compare_older(other)` (`models.py` lines 1130-1274),
returning the trace of emitted events in `events.add` call order.  A
phase runs only when both snapshots have the corresponding collection set
(`self.has(..) and other.has(..)`); the final `self.events.merge(events)`
adds exactly these events to the buffer of the newer snapshot (an empty trace
merges nothing, since every field of the local buffer is still `Unset`).
The embedding models a mutable newer snapshot, as required for the
backfill assignments and the final merge. -/
def compareOlder (selfS otherS : CSnap) : Except String (List CEvent) := do
  let pevs ← match selfS.players, otherS.players with
    | some ps, some os => playersPhase ps os otherS.server.state
    | _, _ => pure ([] : List CEvent)
  let sevs ← match selfS.squads, otherS.squads with
    | some ss, some os => squadsPhase ss os
    | _, _ => pure ([] : List CEvent)
  let tevs ← match selfS.teams, otherS.teams with
    | some ts, some os => teamsPhase selfS.server.state ts os
    | _, _ => pure ([] : List CEvent)
  pure (pevs ++ sevs ++ tevs ++ mapPhase selfS.server.map otherS.server.map)

/-! ### Teams-phase claims -/

def c4TeamNewer : CTeam :=
  { id := .int 1, name := .str "X", score := some 3, created_at := none, createdI := 9 }
def c4TeamOlder : CTeam :=
  { id := .int 2, name := .str "Y", score := some 1, created_at := none, createdI := 9 }
def c4Newer : CSnap :=
  { players := none, squads := none, teams := some [c4TeamNewer],
    server := { map := .unset, state := .unset } }
def c4Older : CSnap :=
  { players := none, squads := none, teams := some [c4TeamOlder],
    server := { map := .unset, state := .unset } }

/-- C4: a snapshot pair, both with non-unset teams collections, where the
newer team has a known score but no key-field match among the older
teams; `compare_older` raises (`match.has("score")` dereferences `None`
at `models.py` line 1255, which sits outside the `if match:` block)
instead of finishing the phase with the created-at backfill. -/
theorem c4_unmatched_scored_team_raises :
    compareOlder c4Newer c4Older =
      .error "AttributeError: NoneType object has no attribute has" := rfl

def c2TeamNewer : CTeam :=
  { id := .int 1, name := .str "Allies", score := some 3, created_at := some 5, createdI := 9 }
def c2TeamOlder : CTeam :=
  { id := .int 1, name := .str "Allies", score := some 2, created_at := some 5, createdI := 9 }
def c2Newer : CSnap :=
  { players := none, squads := none, teams := some [c2TeamNewer],
    server := { map := .unset, state := .str "in_progress" } }
def c2Older : CSnap :=
  { players := none, squads := none, teams := some [c2TeamOlder],
    server := { map := .unset, state := .str "warmup" } }

/-- C2 counterexample: the claim says no objective-capture event is
emitted for a matched team when the OLDER snapshot server state is
`"warmup"`.  Here the older state is `"warmup"`, the newer state is
`"in_progress"`, the score of the matched team rose from 2 to 3 — and the code
emits the capture event anyway, because the guard at `models.py` line
1255 reads `self.server.get("state")`, the state of the NEWER snapshot. -/
theorem c2_warmup_older_counterexample :
    c2Older.server.state = .str "warmup" ∧
    compareOlder c2Newer c2Older =
      .ok [CEvent.objectiveCapture
        ⟨[("id", .int 1), ("name", .str "Allies")]⟩ "3 - 2"] :=
  ⟨rfl, rfl⟩

/-- C2 (amended): in the teams phase, for every newer team matched to an
older team where both have a known score, an objective-capture event is
emitted exactly when `newer.score > older.score` and the NEWER snapshot
server state is not `"warmup"` (an unset state resolves to `None`, which
also counts as not warmup). -/
theorem c2_objective_capture_newer_state (selfState : EValue) (t m : CTeam)
    (others : List CTeam) (evs : List CEvent) (rest : List CTeam) (a b : Int)
    (hm : others.find? (fun q => teamMatches q (teamFilters t)) = some m)
    (ha : t.score = some a) (hb : m.score = some b)
    (hok : teamStep selfState t others = .ok (evs, rest)) :
    (∃ lnk msg, CEvent.objectiveCapture lnk msg ∈ evs) ↔
      (a > b ∧ getE selfState ≠ .str "warmup") := by
  unfold teamStep at hok
  simp only [hm] at hok
  rw [except_bind_ok_iff] at hok
  obtain ⟨e0, hc, hp⟩ := hok
  rw [show (pure (e0, removeFirstBy (fun q => cteamKeyEq q m) others)
      : Except String (List CEvent × List CTeam))
    = Except.ok (e0, removeFirstBy (fun q => cteamKeyEq q m) others) from rfl] at hp
  injection hp with hpair
  obtain ⟨rfl, rfl⟩ := Prod.mk.injEq .. ▸ And.intro (congrArg Prod.fst hpair) (congrArg Prod.snd hpair)
  unfold captureEvents at hc
  simp only [ha, hb] at hc
  by_cases hw : getE selfState = .str "warmup"
  · rw [if_neg (fun hC => hC hw)] at hc
    rw [show (pure [] : Except String (List CEvent)) = Except.ok [] from rfl] at hc
    injection hc with he
    subst he
    simp [hw]
  · rw [if_pos hw] at hc
    by_cases hab : a > b
    · rw [if_pos hab] at hc
      rw [except_bind_ok_iff] at hc
      obtain ⟨tl, htl, hpure⟩ := hc
      rw [show (pure [CEvent.objectiveCapture tl
          (if t.id = .int 1 then s!"{a} - {5 - a}" else s!"{5 - a} - {a}")]
          : Except String (List CEvent))
        = Except.ok [CEvent.objectiveCapture tl
          (if t.id = .int 1 then s!"{a} - {5 - a}" else s!"{5 - a} - {a}")] from rfl] at hpure
      injection hpure with he
      subst he
      constructor
      · intro _
        exact ⟨hab, hw⟩
      · intro _
        exact ⟨tl, _, List.mem_singleton.mpr rfl⟩
    · rw [if_neg hab] at hc
      rw [show (pure [] : Except String (List CEvent)) = Except.ok [] from rfl] at hc
      injection hc with he
      subst he
      simp [hab]

/-! ### Identical-snapshot lemmas (toward C8) -/

theorem except_ok_bind {α β : Type} (x : α) (f : α → Except String β) :
    (Except.ok x >>= f) = f x := rfl

theorem playerMatches_refl (p : CPlayer) : playerMatches p (playerFilters p) = true := by
  unfold playerMatches playerFilters
  cases h1 : p.steamid <;> cases h2 : p.id <;> cases h3 : p.name <;>
    simp [playerRawKey, h1, h2, h3, pyEqB]

theorem hashEqP_refl (p : CPlayer) : hashEqP p p = true := pyEqB_refl _

theorem keyPairOK_refl (v : EValue) : keyPairOK v v = true := by
  unfold keyPairOK
  rw [pyEqB_refl]
  simp

theorem srefEq_refl (s : SRef) : srefEq s s = true := by
  unfold srefEq
  rw [keyPairOK_refl, keyPairOK_refl, keyPairOK_refl]
  rfl

theorem optSquadNe_self (x : Option SRef) : optSquadNe x x = false := by
  cases x with
  | none => rfl
  | some s =>
    show (!srefEq s s) = false
    rw [srefEq_refl]
    rfl

theorem trefEq_refl (t : TRef) : trefEq t t = true := by
  unfold trefEq
  rw [keyPairOK_refl, keyPairOK_refl]
  rfl

theorem optTeamNe_self (x : Option TRef) : optTeamNe x x = false := by
  cases x with
  | none => rfl
  | some t =>
    show (!trefEq t t) = false
    rw [trefEq_refl]
    rfl

theorem leaderNe_self (x : Option PRef) : leaderNe x x = false := by
  cases x with
  | none => rfl
  | some a =>
    show (!pyEqB (prefOrName a) (prefOrName a)) = false
    rw [pyEqB_refl]
    rfl

theorem removeFirstBy_head {α : Type} (pred : α → Bool) (x : α) (rest : List α)
    (h : pred x = true) : removeFirstBy pred (x :: rest) = rest := by
  unfold removeFirstBy
  rw [h]
  rfl

theorem roleEvents_self (p : CPlayer) : roleEvents p (some p) = .ok [] := by
  simp only [roleEvents]
  rw [if_neg (fun h : _ ∧ _ ∧ p.role ≠ p.role => h.2.2 rfl)]
  rfl

theorem levelEvents_self (p : CPlayer) : levelEvents p (some p) = .ok [] := by
  simp only [levelEvents]
  cases h : p.level with
  | none => rfl
  | some a =>
    simp only [h]
    rw [if_neg (fun h2 : a > a ∧ _ => absurd h2.1 (lt_irrefl a))]
    rfl

theorem backfill_squad_eq (p : CPlayer) (mo : Option CPlayer) :
    (backfillJoinedAt p mo).squad = p.squad := by
  unfold backfillJoinedAt
  split <;> rfl

theorem backfill_team_eq (p : CPlayer) (mo : Option CPlayer) :
    (backfillJoinedAt p mo).team = p.team := by
  unfold backfillJoinedAt
  split <;> rfl

theorem squadSwitchEvents_self (p2 : CPlayer) (m : CPlayer)
    (heq : p2.squad = m.squad) : squadSwitchEvents p2 (some m) = .ok [] := by
  unfold squadSwitchEvents
  simp only [heq, optSquadNe_self]
  rfl

theorem teamSwitchEvents_self (p2 : CPlayer) (m : CPlayer)
    (heq : p2.team = m.team) : teamSwitchEvents p2 (some m) = .ok [] := by
  unfold teamSwitchEvents
  simp only [heq, optTeamNe_self]
  rfl

theorem playerStep_self (p : CPlayer) (rest : List CPlayer) :
    playerStep p (p :: rest) = .ok ([], rest) := by
  have hfind : List.find? (fun q => playerMatches q (playerFilters p)) (p :: rest)
      = some p :=
    List.find?_cons_of_pos _ (playerMatches_refl p)
  unfold playerStep
  rw [hfind]
  simp only [roleEvents_self, levelEvents_self, joinEvents, except_ok_bind,
    squadSwitchEvents_self (backfillJoinedAt p (some p)) p (backfill_squad_eq p (some p)),
    teamSwitchEvents_self (backfillJoinedAt p (some p)) p (backfill_team_eq p (some p)),
    removeFirstBy_head (fun q => hashEqP q p) p rest (hashEqP_refl p)]
  rfl

theorem except_pure_eq_ok {α : Type} (x : α) : (pure x : Except String α) = .ok x := rfl

theorem playersFold_self (ps : List CPlayer) :
    ∀ acc, List.foldlM playersFoldStep (acc, ps) ps = .ok (acc, []) := by
  induction ps with
  | nil =>
    intro acc
    rfl
  | cons p rest ih =>
    intro acc
    rw [show List.foldlM playersFoldStep (acc, p :: rest) (p :: rest)
        = playersFoldStep (acc, p :: rest) p >>=
            fun s => List.foldlM playersFoldStep s rest
      from by simp [List.foldlM]]
    have hstep : playersFoldStep (acc, p :: rest) p = .ok (acc, rest) := by
      unfold playersFoldStep
      rw [playerStep_self, except_ok_bind]
      simp [except_pure_eq_ok]
    rw [hstep, except_ok_bind]
    exact ih acc

theorem playersPhase_self (ps : List CPlayer) (st : EValue) :
    playersPhase ps ps st = .ok [] := by
  unfold playersPhase
  rw [playersFold_self ps []]
  rfl

theorem squadMatches_refl (sq : CSquad) : squadMatches sq (squadFilters sq) = true := by
  unfold squadMatches squadFilters
  cases h1 : sq.id <;> cases h2 : sq.name <;> cases h3 : sq.team <;>
    simp [squadRawKey, h1, h2, h3, pyEqB]

theorem csquadKeyEq_refl (sq : CSquad) : csquadKeyEq sq sq = true := by
  unfold csquadKeyEq
  rw [keyPairOK_refl, keyPairOK_refl, keyPairOK_refl]
  rfl

theorem leaderChangeEvents_self (sq : CSquad) :
    leaderChangeEvents sq (some sq) = .ok [] := by
  simp only [leaderChangeEvents]
  cases h : sq.leader with
  | none => rfl
  | some pl =>
    simp only [h, leaderNe_self]
    rfl

theorem squadStep_self (sq : CSquad) (rest : List CSquad) :
    squadStep sq (sq :: rest) = .ok ([], rest) := by
  have hfind : List.find? (fun q => squadMatches q (squadFilters sq)) (sq :: rest)
      = some sq :=
    List.find?_cons_of_pos _ (squadMatches_refl sq)
  unfold squadStep
  rw [hfind]
  simp only [leaderChangeEvents_self, except_ok_bind,
    removeFirstBy_head (fun q => csquadKeyEq q sq) sq rest (csquadKeyEq_refl sq)]
  rfl

theorem squadsFold_self (ss : List CSquad) :
    ∀ acc, List.foldlM squadsFoldStep (acc, ss) ss = .ok (acc, []) := by
  induction ss with
  | nil =>
    intro acc
    rfl
  | cons sq rest ih =>
    intro acc
    rw [show List.foldlM squadsFoldStep (acc, sq :: rest) (sq :: rest)
        = squadsFoldStep (acc, sq :: rest) sq >>=
            fun s => List.foldlM squadsFoldStep s rest
      from by simp [List.foldlM]]
    have hstep : squadsFoldStep (acc, sq :: rest) sq = .ok (acc, rest) := by
      unfold squadsFoldStep
      rw [squadStep_self, except_ok_bind]
      simp [except_pure_eq_ok]
    rw [hstep, except_ok_bind]
    exact ih acc

theorem squadsPhase_self (ss : List CSquad) : squadsPhase ss ss = .ok [] := by
  unfold squadsPhase
  rw [squadsFold_self ss []]
  rfl

theorem teamMatches_refl (t : CTeam) : teamMatches t (teamFilters t) = true := by
  unfold teamMatches teamFilters
  cases h1 : t.id <;> cases h2 : t.name <;> simp [teamRawKey, h1, h2, pyEqB]

theorem cteamKeyEq_refl (t : CTeam) : cteamKeyEq t t = true := by
  unfold cteamKeyEq
  rw [keyPairOK_refl, keyPairOK_refl]
  rfl

theorem captureEvents_self (selfState : EValue) (t : CTeam) :
    captureEvents selfState t (some t) = .ok [] := by
  unfold captureEvents
  cases h : t.score with
  | none => rfl
  | some a =>
    simp only [h]
    split
    · rw [if_neg (lt_irrefl a)]
      rfl
    · rfl

theorem teamStep_self (selfState : EValue) (t : CTeam) (rest : List CTeam) :
    teamStep selfState t (t :: rest) = .ok ([], rest) := by
  have hfind : List.find? (fun q => teamMatches q (teamFilters t)) (t :: rest)
      = some t :=
    List.find?_cons_of_pos _ (teamMatches_refl t)
  unfold teamStep
  rw [hfind]
  simp only [captureEvents_self, except_ok_bind,
    removeFirstBy_head (fun q => cteamKeyEq q t) t rest (cteamKeyEq_refl t)]
  rfl

theorem teamsFold_self (selfState : EValue) (ts : List CTeam) :
    ∀ acc, List.foldlM (teamsFoldStep selfState) (acc, ts) ts = .ok (acc, []) := by
  induction ts with
  | nil =>
    intro acc
    rfl
  | cons t rest ih =>
    intro acc
    rw [show List.foldlM (teamsFoldStep selfState) (acc, t :: rest) (t :: rest)
        = teamsFoldStep selfState (acc, t :: rest) t >>=
            fun s => List.foldlM (teamsFoldStep selfState) s rest
      from by simp [List.foldlM]]
    have hstep : teamsFoldStep selfState (acc, t :: rest) t = .ok (acc, rest) := by
      unfold teamsFoldStep
      rw [teamStep_self, except_ok_bind]
      simp [except_pure_eq_ok]
    rw [hstep, except_ok_bind]
    exact ih acc

theorem teamsPhase_self (selfState : EValue) (ts : List CTeam) :
    teamsPhase selfState ts ts = .ok [] := by
  unfold teamsPhase
  rw [teamsFold_self selfState ts []]
  rfl

theorem mapPhase_self (m : EValue) : mapPhase m m = [] := by
  unfold mapPhase
  rw [pyEqB_refl]
  simp

/-- C8: diff idempotence on identical snapshots.  For every (mutable)
snapshot `s`, `s.compare_older(s)` emits no events: every player, squad
and team matches itself first in the working copy, all compared resolved
values coincide, the leftover lists are empty and the maps agree, so the
local buffer stays entirely `Unset` and the final
`self.events.merge(events)` adds nothing to the event buffer. -/
theorem c8_identical_snapshots_emit_nothing (s : CSnap) :
    compareOlder s s = .ok [] := by
  unfold compareOlder
  cases hp : s.players <;> cases hq : s.squads <;> cases ht : s.teams <;>
    simp [playersPhase_self, squadsPhase_self, teamsPhase_self, mapPhase_self,
      except_ok_bind, except_pure_eq_ok]

/-! ### Level-up guard (C9) -/

theorem levelEvents_char (p m : CPlayer) (a b : Int) (e : List CEvent)
    (ha : p.level = some a) (hb : m.level = some b)
    (h : levelEvents p (some m) = .ok e) :
    (a > b ∧ ¬(b = 1 ∧ a - b > 1) ∧ ∃ lnk, e = [CEvent.playerLevelUp lnk b a]) ∨
    (¬(a > b ∧ ¬(b = 1 ∧ a - b > 1)) ∧ e = []) := by
  simp only [levelEvents, ha, hb] at h
  by_cases hc : a > b ∧ ¬(b = 1 ∧ a - b > 1)
  · rw [if_pos hc, except_bind_ok_iff] at h
    obtain ⟨lnk, hl, hp2⟩ := h
    rw [except_pure_eq_ok] at hp2
    exact Or.inl ⟨hc.1, hc.2, lnk, (Except.ok.inj hp2).symm⟩
  · rw [if_neg hc, except_pure_eq_ok] at h
    exact Or.inr ⟨hc, (Except.ok.inj h).symm⟩

theorem roleEvents_no_levelup (p : CPlayer) (mo : Option CPlayer) (e : List CEvent)
    (h : roleEvents p mo = .ok e) (lnk : LinkP) (b a : Int) :
    CEvent.playerLevelUp lnk b a ∉ e := by
  cases mo with
  | none =>
    simp only [roleEvents, except_pure_eq_ok] at h
    rw [← Except.ok.inj h]
    simp
  | some m =>
    simp only [roleEvents] at h
    split at h
    · rw [except_bind_ok_iff] at h
      obtain ⟨l2, hl2, hp2⟩ := h
      rw [except_pure_eq_ok] at hp2
      rw [← Except.ok.inj hp2]
      simp
    · rw [except_pure_eq_ok] at h
      rw [← Except.ok.inj h]
      simp

theorem joinEvents_mem (p2 : CPlayer) (mo : Option CPlayer) (e : List CEvent)
    (h : joinEvents p2 mo = .ok e) (ev : CEvent) (hmem : ev ∈ e) :
    ∃ l, ev = CEvent.playerJoinServer l := by
  cases mo with
  | some m =>
    rw [show joinEvents p2 (some m) = pure [] from rfl, except_pure_eq_ok] at h
    rw [← Except.ok.inj h] at hmem
    simp at hmem
  | none =>
    simp only [joinEvents] at h
    rw [except_bind_ok_iff] at h
    obtain ⟨l, hl, h⟩ := h
    rw [except_pure_eq_ok] at h
    rw [← Except.ok.inj h] at hmem
    rw [List.mem_singleton] at hmem
    exact ⟨l, hmem⟩

theorem squadSwitchEvents_mem (p2 : CPlayer) (mo : Option CPlayer) (e : List CEvent)
    (h : squadSwitchEvents p2 mo = .ok e) (ev : CEvent) (hmem : ev ∈ e) :
    ∃ l o y, ev = CEvent.playerSwitchSquad l o y := by
  simp only [squadSwitchEvents] at h
  split at h
  · rw [except_bind_ok_iff] at h
    obtain ⟨l1, hl1, h⟩ := h
    split at h
    all_goals
      rw [except_bind_ok_iff] at h
      obtain ⟨o1, ho1, h⟩ := h
      split at h
      all_goals
        rw [except_bind_ok_iff] at h
        obtain ⟨y1, hy1, h⟩ := h
        rw [except_pure_eq_ok] at h
        rw [← Except.ok.inj h] at hmem
        rw [List.mem_singleton] at hmem
        exact ⟨l1, o1, y1, hmem⟩
  · rw [except_pure_eq_ok] at h
    rw [← Except.ok.inj h] at hmem
    simp at hmem

theorem teamSwitchEvents_mem (p2 : CPlayer) (mo : Option CPlayer) (e : List CEvent)
    (h : teamSwitchEvents p2 mo = .ok e) (ev : CEvent) (hmem : ev ∈ e) :
    ∃ l o y, ev = CEvent.playerSwitchTeam l o y := by
  simp only [teamSwitchEvents] at h
  split at h
  · rw [except_bind_ok_iff] at h
    obtain ⟨l1, hl1, h⟩ := h
    split at h
    all_goals
      rw [except_bind_ok_iff] at h
      obtain ⟨o1, ho1, h⟩ := h
      split at h
      all_goals
        rw [except_bind_ok_iff] at h
        obtain ⟨y1, hy1, h⟩ := h
        rw [except_pure_eq_ok] at h
        rw [← Except.ok.inj h] at hmem
        rw [List.mem_singleton] at hmem
        exact ⟨l1, o1, y1, hmem⟩
  · rw [except_pure_eq_ok] at h
    rw [← Except.ok.inj h] at hmem
    simp at hmem

/-- C9: for a matched player pair where both the newer player and the
match carry a known level, `compare_older` emits a level-up event exactly
when `p.level > match.level` and not the late-loading artifact case
`match.level == 1 and p.level - match.level > 1` (`models.py` lines
1162-1168). -/
theorem c9_level_up_guard (p m : CPlayer) (others : List CPlayer)
    (evs : List CEvent) (rest : List CPlayer) (a b : Int)
    (hm : others.find? (fun q => playerMatches q (playerFilters p)) = some m)
    (ha : p.level = some a) (hb : m.level = some b)
    (hok : playerStep p others = .ok (evs, rest)) :
    (∃ lnk, CEvent.playerLevelUp lnk b a ∈ evs) ↔
      (a > b ∧ ¬ (b = 1 ∧ a - b > 1)) := by
  unfold playerStep at hok
  simp only [hm] at hok
  rw [except_bind_ok_iff] at hok
  obtain ⟨e1, h1, hok⟩ := hok
  rw [except_bind_ok_iff] at hok
  obtain ⟨e2, h2, hok⟩ := hok
  rw [except_bind_ok_iff] at hok
  obtain ⟨e3, h3, hok⟩ := hok
  rw [except_bind_ok_iff] at hok
  obtain ⟨e4, h4, hok⟩ := hok
  rw [except_bind_ok_iff] at hok
  obtain ⟨e5, h5, hok⟩ := hok
  rw [except_pure_eq_ok] at hok
  have hevs : evs = e1 ++ e2 ++ e3 ++ e4 ++ e5 :=
    (congrArg Prod.fst (Except.ok.inj hok)).symm
  subst hevs
  constructor
  · rintro ⟨lnk, hmem⟩
    simp only [List.mem_append] at hmem
    rcases hmem with ((((hm1 | hm2) | hm3) | hm4) | hm5)
    · exact absurd hm1 (roleEvents_no_levelup p (some m) e1 h1 lnk b a)
    · rcases levelEvents_char p m a b e2 ha hb h2 with ⟨hgt, hng, _, _⟩ | ⟨_, he⟩
      · exact ⟨hgt, hng⟩
      · rw [he] at hm2
        simp at hm2
    · obtain ⟨l, hx⟩ := joinEvents_mem _ _ _ h3 _ hm3
      simp at hx
    · obtain ⟨l, o, y, hx⟩ := squadSwitchEvents_mem _ _ _ h4 _ hm4
      simp at hx
    · obtain ⟨l, o, y, hx⟩ := teamSwitchEvents_mem _ _ _ h5 _ hm5
      simp at hx
  · intro hcond
    rcases levelEvents_char p m a b e2 ha hb h2 with ⟨_, _, lnk, he⟩ | ⟨hnc, _⟩
    · refine ⟨lnk, ?_⟩
      rw [he]
      simp
    · exact absurd hcond hnc

/-- C2 witness: the amended statement applied to a concrete matched team
pair (scores 2 → 3, newer state `"in_progress"`). -/
theorem c2_objective_capture_witness :
    (∃ lnk msg, CEvent.objectiveCapture lnk msg ∈
      [CEvent.objectiveCapture
        (⟨[("id", EValue.int 1), ("name", EValue.str "Allies")]⟩ : LinkT) "3 - 2"]) ↔
      ((3 : Int) > 2 ∧ getE (.str "in_progress") ≠ .str "warmup") :=
  c2_objective_capture_newer_state (.str "in_progress") c2TeamNewer c2TeamOlder
    [c2TeamOlder]
    [CEvent.objectiveCapture
      (⟨[("id", EValue.int 1), ("name", EValue.str "Allies")]⟩ : LinkT) "3 - 2"]
    [] 3 2 rfl rfl rfl rfl

def c9NewPlayer : CPlayer :=
  { steamid := .str "A", id := .unset, name := .unset, role := .unset, level := some 5,
    squad := none, team := none, joined_at := some 1, createdI := 0 }
def c9OldPlayer : CPlayer := { c9NewPlayer with level := some 3 }

/-- C9 witness: a matched player whose level rose from 3 to 5 produces
exactly the guarded level-up emission. -/
theorem c9_level_up_witness :
    (∃ lnk, CEvent.playerLevelUp lnk 3 5 ∈
      [CEvent.playerLevelUp ⟨[("steamid", EValue.str "A")], .keyOnly⟩ 3 5]) ↔
      ((5 : Int) > 3 ∧ ¬ ((3 : Int) = 1 ∧ (5 : Int) - 3 > 1)) :=
  c9_level_up_guard c9NewPlayer c9OldPlayer [c9OldPlayer]
    [CEvent.playerLevelUp ⟨[("steamid", EValue.str "A")], .keyOnly⟩ 3 5] [] 5 3
    rfl rfl rfl rfl

/-! ### Leftover players (C10) -/

def c10SquadX : SRef := { id := .int 7, name := .str "X", team := .unset }
def c10PlayerB : CPlayer :=
  { steamid := .str "B", id := .unset, name := .unset, role := .unset, level := none,
    squad := some (some c10SquadX), team := none, joined_at := some 3, createdI := 0 }
def c10Newer : CSnap :=
  { players := some [], squads := none, teams := none,
    server := { map := .unset, state := .unset } }
def c10Older : CSnap :=
  { players := some [c10PlayerB], squads := none, teams := none,
    server := { map := .unset, state := .unset } }

/-- C10 counterexample: both players collections are non-unset, player
"B" (with a squad) is present only in the older snapshot, yet
`compare_older` emits nothing at all: the leftover loop begins with the
strict attribute access `other.server.state` (`models.py` line 1198),
which raises `AttributeError` because the older server state is `Unset`,
so no score-update/leave/switch events are produced. -/
theorem c10_leftover_unset_state_counterexample :
    compareOlder c10Newer c10Older = .error "AttributeError: state" := rfl

/-- C10 (amended): for every player present only in the older snapshot,
provided the older server state is set, the player has a concrete key
field, and any squad/team they resolve has a concrete key field (each
`create_link(with_fallback=True)` raises otherwise), the leftover
processing emits, in this order: a score-update event when the older
state equals `"in_progress"`, then always a leave event, then a
squad-switch event whose `old` is a squad link carrying a fallback and
whose `new` is none when the player resolved a squad, then likewise a
team-switch event to none when the player resolved a team (`models.py`
lines 1197-1217). -/
theorem c10_leftover_events_amended (st : EValue) (q : CPlayer)
    (hst : st ≠ .unset)
    (hkey : (playerKeyAttrs q).isEmpty = false)
    (hsq : ∀ s, q.squad.join = some s → (srefKeyAttrs s).isEmpty = false)
    (htm : ∀ t, q.team.join = some t → (trefKeyAttrs t).isEmpty = false) :
    leftoverStep st q = .ok (
      (if st = .str "in_progress"
        then [CEvent.playerScoreUpdate ⟨playerKeyAttrs q, .copyPlayer q⟩] else [])
      ++ [CEvent.playerLeaveServer ⟨playerKeyAttrs q, .copyPlayer q⟩]
      ++ (match q.squad.join with
          | some s => [CEvent.playerSwitchSquad ⟨playerKeyAttrs q, .copyPlayer q⟩
              (some ⟨srefKeyAttrs s, s⟩) none]
          | none => [])
      ++ (match q.team.join with
          | some t => [CEvent.playerSwitchTeam ⟨playerKeyAttrs q, .copyPlayer q⟩
              (some ⟨trefKeyAttrs t⟩) none]
          | none => [])) := by
  have hlink : createLinkP q (.copyPlayer q) = .ok ⟨playerKeyAttrs q, .copyPlayer q⟩ := by
    simp only [createLinkP]
    rw [if_neg (by simp [hkey])]
  unfold leftoverStep
  rw [if_neg hst]
  cases hsqj : q.squad.join with
  | some s =>
    have hslink : createLinkSRef s = .ok ⟨srefKeyAttrs s, s⟩ := by
      simp only [createLinkSRef]
      rw [if_neg (by simp [hsq s hsqj])]
    cases htmj : q.team.join with
    | some t =>
      have htlink : createLinkTRef t = .ok ⟨trefKeyAttrs t⟩ := by
        simp only [createLinkTRef]
        rw [if_neg (by simp [htm t htmj])]
      by_cases hip : st = .str "in_progress"
      · simp [hip, hlink, hslink, htlink, except_ok_bind, except_pure_eq_ok]
      · simp [hip, hlink, hslink, htlink, except_ok_bind, except_pure_eq_ok]
    | none =>
      by_cases hip : st = .str "in_progress"
      · simp [hip, hlink, hslink, except_ok_bind, except_pure_eq_ok]
      · simp [hip, hlink, hslink, except_ok_bind, except_pure_eq_ok]
  | none =>
    cases htmj : q.team.join with
    | some t =>
      have htlink : createLinkTRef t = .ok ⟨trefKeyAttrs t⟩ := by
        simp only [createLinkTRef]
        rw [if_neg (by simp [htm t htmj])]
      by_cases hip : st = .str "in_progress"
      · simp [hip, hlink, htlink, except_ok_bind, except_pure_eq_ok]
      · simp [hip, hlink, htlink, except_ok_bind, except_pure_eq_ok]
    | none =>
      by_cases hip : st = .str "in_progress"
      · simp [hip, hlink, except_ok_bind, except_pure_eq_ok]
      · simp [hip, hlink, except_ok_bind, except_pure_eq_ok]

def c10wTeam : TRef := { id := .int 2, name := .str "Axis" }
def c10wPlayer : CPlayer :=
  { steamid := .str "B", id := .unset, name := .unset, role := .unset, level := none,
    squad := some (some c10SquadX), team := some (some c10wTeam),
    joined_at := some 3, createdI := 0 }

/-- C10 witness: a leftover player with squad and team, older state
`"in_progress"`, produces exactly the four events in order. -/
theorem c10_leftover_events_witness :
    leftoverStep (.str "in_progress") c10wPlayer = .ok
      [CEvent.playerScoreUpdate ⟨[("steamid", .str "B")], .copyPlayer c10wPlayer⟩,
       CEvent.playerLeaveServer ⟨[("steamid", .str "B")], .copyPlayer c10wPlayer⟩,
       CEvent.playerSwitchSquad ⟨[("steamid", .str "B")], .copyPlayer c10wPlayer⟩
         (some ⟨[("id", .int 7), ("name", .str "X")], c10SquadX⟩) none,
       CEvent.playerSwitchTeam ⟨[("steamid", .str "B")], .copyPlayer c10wPlayer⟩
         (some ⟨[("id", .int 2), ("name", .str "Axis")]⟩) none] := by
  rw [c10_leftover_events_amended (.str "in_progress") c10wPlayer (by decide) (by decide)
    (fun s hs => by cases hs; decide) (fun t ht => by cases ht; decide)]
  rfl

/-! ## Link resolution (C3): `InfoModel._get_link_value`
(`models.py` lines 437-442), specialized to links whose `path` is the
`players` collection (scope path `"players"`, `models.py` line 563); the
other flat collection paths behave identically through the same
`ModelTree._get`. -/

/-- Possible results of resolving a link.  `runset` stands for the
`Unset` sentinel; it is included only so that theorems can distinguish it
from `rnone`, the Python `None`. -/
inductive LinkRes where
  | runset
  | rnone
  | single (p : CPlayer)
  | many (ps : List CPlayer)
  | fb (p : CPlayer)
deriving DecidableEq, Repr

/-- Raw scalar field lookup used by link matching.  Link `matchValues`
built by `create_link` range over the scalar key fields; `role` and
`level` are included for completeness, non-scalar fields are outside this
embedding. -/
def playerRawField (q : CPlayer) : String → EValue
  | "steamid" => q.steamid
  | "id" => q.id
  | "name" => q.name
  | "role" => q.role
  | "level" =>
    match q.level with
    | some n => .int n
    | none => .unset
  | _ => .unset

/-- Embedding of `InfoModel.matches(**filters)` as invoked by link resolution
(`models.py` line 439): `ignore_unknown` is not passed, so every
`matchValues` entry must equal the raw value exactly (`Unset` filter
values compare equal only to `Unset` raw values). -/
def linkMatchesP (q : CPlayer) (values : List (String × EValue)) : Bool :=
  values.all fun kv => pyEqB (playerRawField q kv.1) kv.2

/-- Embedding of `InfoModel._get_link_value(link)` (`models.py` lines 437-442) through
`ModelTree._get` (`models.py` lines 181-229): an `Unset` collection is
replaced by an empty array; the array is filtered by the match values;
with `multiple` the whole filtered list is returned, otherwise the first
match or `None`; a falsy result (empty list or `None`) falls back to
`link.fallback` when one is set, else is returned as-is — the function
never produces `Unset`. -/
def getLinkValuePlayers (h : CSnap) (values : List (String × EValue))
    (multiple : Bool) (fallback : Option CPlayer) : LinkRes :=
  let arr := match h.players with
    | some ps => ps
    | none => []
  let found := arr.filter fun q => linkMatchesP q values
  let res : LinkRes := if multiple then .many found
    else match found with
      | q :: _ => .single q
      | [] => .rnone
  match res, fallback with
  | .rnone, some f => .fb f
  | .many [], some f => .fb f
  | r, _ => r

/-- Reading the linked attribute of the owning node
(`InfoModel.__getattribute__`, `models.py` lines 384-403): the resolved
value is returned unless it is the `Unset` sentinel, which would raise
`AttributeError`. -/
def readLinkedAttr (h : CSnap) (values : List (String × EValue))
    (multiple : Bool) (fallback : Option CPlayer) : Except String LinkRes :=
  if getLinkValuePlayers h values multiple fallback = .runset then
    .error "AttributeError"
  else .ok (getLinkValuePlayers h values multiple fallback)

def c3Snap : CSnap :=
  { players := some [], squads := none, teams := none,
    server := { map := .unset, state := .unset } }

/-- C3 counterexample: a single-cardinality link with no fallback and no
matching entity resolves to the Python `None` — not to `Unset` as the
claim states — and reading the linked attribute therefore returns `None`
rather than signalling a missing attribute. -/
theorem c3_link_no_match_counterexample :
    getLinkValuePlayers c3Snap [("steamid", .str "A")] false none = .rnone ∧
    LinkRes.rnone ≠ LinkRes.runset ∧
    readLinkedAttr c3Snap [("steamid", .str "A")] false none = .ok .rnone :=
  ⟨rfl, by decide, rfl⟩

/-- C3 (amended): for every single-cardinality link with no fallback,
when no entity of the collection at the scope path of the link matches all of
the match values, resolution yields `None` (the Python null, distinct
from the `Unset` sentinel), and reading the linked attribute returns that
`None`. -/
theorem c3_link_no_match_yields_none (h : CSnap) (values : List (String × EValue))
    (hnone : ∀ q ∈ (match h.players with | some ps => ps | none => ([] : List CPlayer)),
      linkMatchesP q values = false) :
    getLinkValuePlayers h values false none = .rnone ∧
    readLinkedAttr h values false none = .ok .rnone := by
  have hf : (match h.players with
      | some ps => ps
      | none => ([] : List CPlayer)).filter (fun q => linkMatchesP q values) = [] := by
    rw [List.filter_eq_nil_iff]
    intro q hq
    simp [hnone q hq]
  have h1 : getLinkValuePlayers h values false none = .rnone := by
    simp only [getLinkValuePlayers, hf]
    rfl
  refine ⟨h1, ?_⟩
  unfold readLinkedAttr
  rw [h1]
  rfl

def c3wPlayer : CPlayer :=
  { steamid := .str "Z", id := .unset, name := .unset, role := .unset, level := none,
    squad := none, team := none, joined_at := none, createdI := 0 }
def c3wSnap : CSnap :=
  { players := some [c3wPlayer], squads := none, teams := none,
    server := { map := .unset, state := .unset } }

/-- C3 witness: a players collection with one non-matching entity. -/
theorem c3_link_no_match_witness :
    getLinkValuePlayers c3wSnap [("steamid", .str "A")] false none = .rnone ∧
    readLinkedAttr c3wSnap [("steamid", .str "A")] false none = .ok .rnone :=
  c3_link_no_match_yields_none c3wSnap [("steamid", .str "A")]
    (by intro q hq
        simp only [c3wSnap] at hq
        rw [List.mem_singleton] at hq
        subst hq
        decide)
